import Mathlib

/- Shallow embedding of src/src/algos/mu_zero/mu_mcts.py (the MuZero MCTS
core: Node, RootParentNode, MCTS).

Modelling conventions:
- Python floats are modelled by QF := Option ℚ: some q is a finite value,
  none marks a non-finite float (an infinity or a NaN).  Every arithmetic
  operation reachable from the claims maps non-finite operands to non-finite
  results, and a division of finite operands by zero to a non-finite result,
  which the QF operations reproduce exactly.
- Python dicts are association lists with replace-or-append insertion
  (dictInsert) and first-match lookup (dictFind).
- numpy float arrays are List ℚ (known finite) or List QF; np.log and
  np.sqrt are threaded as abstract parameters lg sq : ℚ → ℚ, since no claim
  depends on their values; np.argmax is npArgmax (numpy documents the first
  occurrence of the maximum, and propagation of the first non-finite NaN).
- Methods that mutate self are state-passing functions returning the updated
  object; Python exceptions (AttributeError, KeyError, AssertionError,
  TypeError, IndexError) are Except.error with the exception name.
- States and observations are opaque: type parameters σ and ω, with
  DecidableEq σ standing for the hashability the dict keys need.
-/

namespace AMPED

/-- Finite-or-nonfinite float: some q is the finite rational q, none is a
non-finite float value (an infinity or a NaN). -/
abbrev QF : Type := Option ℚ

/-- Float addition: a non-finite operand always gives a non-finite result. -/
def qfAdd : QF → QF → QF
  | some a, some b => some (a + b)
  | _, _ => none

/-- Float subtraction: a non-finite operand always gives a non-finite result. -/
def qfSub : QF → QF → QF
  | some a, some b => some (a - b)
  | _, _ => none

/-- Float multiplication: a non-finite operand gives a non-finite result
(0 * inf and 0 * NaN are NaN, hence non-finite as well). -/
def qfMul : QF → QF → QF
  | some a, some b => some (a * b)
  | _, _ => none

/-- Float division.  A finite numerator over a finite zero denominator is a
signed infinity or NaN, hence none.  A non-finite denominator under a finite
numerator would in fact give a finite 0 or NaN in IEEE arithmetic; no
division reachable from the claims has a non-finite denominator (the
denominators are visit counts plus one, and differences of finite bounds). -/
def qfDiv : QF → QF → QF
  | some a, some b => if b = 0 then none else some (a / b)
  | _, _ => none

/-- Sum of a float array, as produced by np.sum over the modelled values. -/
def qfSum : List QF → QF := List.foldr qfAdd (some 0)

/-- np.minimum on two scalars.  On non-finite operands IEEE minimum is not
always non-finite (minimum of inf and x is x); every call site in the source
first evaluates Node.min_q, which raises, so that case is unreachable. -/
def qfMin : QF → QF → QF
  | some a, some b => some (min a b)
  | _, _ => none

/-- np.maximum on two scalars; same remark as for qfMin. -/
def qfMax : QF → QF → QF
  | some a, some b => some (max a b)
  | _, _ => none

/-- Python dict lookup over an association list: first pair with the key. -/
def dictFind [DecidableEq κ] : List (κ × β) → κ → Option β
  | [], _ => none
  | (k0, v) :: rest, k => if k0 = k then some v else dictFind rest k

/-- Python dict assignment: replace the value at an existing key in place,
append a fresh key at the end. -/
def dictInsert [DecidableEq κ] : List (κ × β) → κ → β → List (κ × β)
  | [], k, v => [(k, v)]
  | (k0, v0) :: rest, k, v =>
    if k0 = k then (k, v) :: rest else (k0, v0) :: dictInsert rest k v

/-- First index of the maximum of a list of finite floats, as np.argmax
documents it (ties keep the first occurrence).  np.argmax raises on an empty
array; no claim evaluates it there, and the model returns 0. -/
def npArgmaxFirst : List ℚ → ℕ
  | [] => 0
  | [_] => 0
  | x :: y :: rest =>
    let j := npArgmaxFirst (y :: rest)
    if x < (y :: rest).getD j 0 then j + 1 else 0

/-- np.argmax over possibly non-finite values: the maximum reduction
propagates NaN, so the first non-finite index wins when one exists;
otherwise the first index of the maximum. -/
def npArgmax (l : List QF) : ℕ :=
  match l.findIdx? Option.isNone with
  | some i => i
  | none => npArgmaxFirst (l.filterMap id)

/-- np.dot of two float vectors. -/
def npDot (xs ys : List ℚ) : ℚ := (List.zipWith (· * ·) xs ys).sum

/-- np.power(gamma * np.ones n, np.arange n): the vector of powers
gamma ^ 0, …, gamma ^ (n - 1). -/
def powArange (gamma : ℚ) (n : ℕ) : List ℚ := (List.range n).map (fun e => gamma ^ e)

/-- Search-tree vertex, lines 9-50 of the source.  reward and policy are
Option because RootParentNode never assigns them (reading an unassigned
attribute raises AttributeError). -/
structure Node (σ : Type) where
  state : σ
  reward : Option ℚ
  policy : Option (List ℚ)
  q_values : List QF
  visits : List ℚ

variable {ω σ : Type}

/-- Node.__init__(state, reward, policy, action_size): zero Q-values and
zero visit counts. -/
def Node.init (state : σ) (reward : ℚ) (policy : List ℚ) (action_size : ℕ) : Node σ :=
  { state := state, reward := some reward, policy := some policy,
    q_values := List.replicate action_size (some 0),
    visits := List.replicate action_size 0 }

/-- RootParentNode.__init__(initial_state, action_size): assigns q_values,
visits and state only; reward and policy are never set. -/
def RootParentNode (initial_state : σ) (action_size : ℕ) : Node σ :=
  { state := initial_state, reward := none, policy := none,
    q_values := List.replicate action_size (some 0),
    visits := List.replicate action_size 0 }

/-- Node.number_visits. -/
def Node.number_visits (n : Node σ) (action : ℕ) : ℚ := n.visits.getD action 0

/-- Node.update_num_visit: visits[action] += 1. -/
def Node.update_num_visit (n : Node σ) (action : ℕ) : Node σ :=
  { n with visits := n.visits.set action (n.visits.getD action 0 + 1) }

/-- Node.get_total_visits: np.sum(visits). -/
def Node.get_total_visits (n : Node σ) : ℚ := n.visits.sum

/-- Node.q_value. -/
def Node.q_value (n : Node σ) (action : ℕ) : QF := n.q_values.getD action none

/-- Node.set_q_value. -/
def Node.set_q_value (n : Node σ) (q_val : QF) (action : ℕ) : Node σ :=
  { n with q_values := n.q_values.set action q_val }

/-- Node.update, lines 36-45: incremental mean, then rescale by
(max_q - min_q) with no guard against a zero range, then increment the
visit count. -/
def Node.update (n : Node σ) (gain : QF) (action_index : ℕ) (min_q max_q : QF) : Node σ :=
  let n_a := n.number_visits action_index
  let q_old := n.q_value action_index
  let q_val := qfDiv (qfAdd (qfMul (some n_a) q_old) gain) (some (n_a + 1))
  let q_val2 := qfDiv (qfSub q_val min_q) (qfSub max_q min_q)
  (n.set_q_value q_val2 action_index).update_num_visit action_index

/-- Node.action_distribution, lines 47-50: visits / np.sum(visits), with no
guard against a zero total (each entry of v / 0 is an infinity or NaN). -/
def Node.action_distribution (n : Node σ) : List QF :=
  let total := n.visits.sum
  n.visits.map (fun v => qfDiv (some v) (some total))

/-- The class Node defines no method min_q anywhere in the repository;
calling it raises AttributeError (line 146 of the source does call it). -/
def Node.min_q (_ : Node σ) : Except String ℚ := Except.error "AttributeError: min_q"

/-- The class Node defines no method max_q either; calling it raises
AttributeError (line 147 of the source does call it). -/
def Node.max_q (_ : Node σ) : Except String ℚ := Except.error "AttributeError: max_q"

/-- The opaque learned model boundary: the three functions the MCTS core
calls.  dynamics_function returns (reward, next_state); prediction_function
returns (policy_vector, value). -/
structure Model (ω σ : Type) where
  representation_function : ω → σ
  dynamics_function : σ → ℕ → ℚ × σ
  prediction_function : σ → List ℚ × ℚ

/-- The mcts_param dict handed to MCTS.__init__; a missing key models an
absent dict entry, whose subscript read raises KeyError. -/
structure MCTSParam where
  k_sims : Option ℤ
  c1 : Option ℚ
  c2 : Option ℚ
  gamma : Option ℚ

/-- The MCTS object: configuration plus the two mutable tables. -/
structure MCTS (ω σ : Type) where
  model : Model ω σ
  k : ℤ
  c1 : ℚ
  c2 : ℚ
  gamma : ℚ
  action_space : ℕ
  lookup_table : List ((σ × ℕ) × (σ × ℚ))
  state_node_dict : List (σ × Node σ)

/-- MCTS.__init__, lines 65-76: reads k_sims, c1, c2, gamma from the param
dict in that order (KeyError when absent), asserts k > 1, starts with empty
tables. -/
def MCTS.init (model : Model ω σ) (mcts_param : MCTSParam) (action_length : ℕ) :
    Except String (MCTS ω σ) :=
  match mcts_param.k_sims with
  | none => Except.error "KeyError: k_sims"
  | some k =>
    match mcts_param.c1 with
    | none => Except.error "KeyError: c1"
    | some c1 =>
      match mcts_param.c2 with
      | none => Except.error "KeyError: c2"
      | some c2 =>
        match mcts_param.gamma with
        | none => Except.error "KeyError: gamma"
        | some gamma =>
          if 1 < k then
            Except.ok { model := model, k := k, c1 := c1, c2 := c2, gamma := gamma,
                        action_space := action_length, lookup_table := [],
                        state_node_dict := [] }
          else
            Except.error "AssertionError: K simulations must be greater than 1"

/-- MCTS.get_action, lines 78-84: PUCT scores then np.argmax.  Reading
node.policy on a node that never assigned it raises AttributeError. -/
def MCTS.get_action (m : MCTS ω σ) (lg sq : ℚ → ℚ) (node : Node σ) : Except String ℕ :=
  match node.policy with
  | none => Except.error "AttributeError: policy"
  | some policy =>
    let total_visits := node.get_total_visits
    let term := m.c1 + lg (total_visits + m.c2 + 1) - lg m.c2
    let values := List.zipWith
      (fun q pv => qfAdd q (qfDiv (some (pv.1 * term * sq total_visits)) (some (1 + pv.2))))
      node.q_values (policy.zip node.visits)
    Except.ok (npArgmax values)

/-- MCTS.lookup, lines 86-91.  On a hit the cached (new_state, reward) pair
is returned.  The miss branch calls the dynamics function and stores
(new_state, reward) in the table, but the Python source has no return
statement there, so the call evaluates to None: first component none. -/
def MCTS.lookup [DecidableEq σ] (m : MCTS ω σ) (state : σ) (action : ℕ) :
    Option (σ × ℚ) × MCTS ω σ :=
  match dictFind m.lookup_table (state, action) with
  | some res => (some res, m)
  | none =>
    let (reward, new_state) := m.model.dynamics_function state action
    (none,
     { m with lookup_table := dictInsert m.lookup_table (state, action) (new_state, reward) })

/-- MCTS.state_to_node, lines 93-100: node-table lookup, creating and
registering a fresh Node via the prediction function on a miss. -/
def MCTS.state_to_node [DecidableEq σ] (m : MCTS ω σ) (state : σ) (reward : ℚ := 0) :
    Node σ × MCTS ω σ :=
  match dictFind m.state_node_dict state with
  | some node => (node, m)
  | none =>
    let (policy, _) := m.model.prediction_function state
    let new_node := Node.init state reward policy m.action_space
    (new_node, { m with state_node_dict := dictInsert m.state_node_dict state new_node })

/-- MCTS.store, lines 102-104: unconditionally bind a fresh Node to the
state key. -/
def MCTS.store [DecidableEq σ] (m : MCTS ω σ) (state : σ) (reward : ℚ) (policy : List ℚ) :
    MCTS ω σ :=
  { m with state_node_dict :=
      dictInsert m.state_node_dict state (Node.init state reward policy m.action_space) }

/-- MCTS.reset_nodes, lines 106-108. -/
def MCTS.reset_nodes (m : MCTS ω σ) : MCTS ω σ :=
  { m with lookup_table := [], state_node_dict := [] }

/-- MCTS.compute_gain, lines 110-114: discount the tail rewards[i+1:] by
gamma ^ 0, gamma ^ 1, … and add gamma ^ (l - i) * v_l.  The exponent l - i
is ℕ subtraction; backup only calls compute_gain with i ≤ l. -/
def MCTS.compute_gain (m : MCTS ω σ) (rewards : List ℚ) (v_l : ℚ) (i l : ℕ) : ℚ :=
  let reward_step := rewards.drop (i + 1)
  m.gamma ^ (l - i) * v_l + npDot reward_step (powArange m.gamma reward_step.length)

/-- Line 167 of the source: self.state_to_node(s, r).update(g, a, min_q,
max_q).  The returned node is the very object the node table holds at key s
(found, or just inserted by state_to_node), and update mutates it in place;
re-inserting the updated node at s models that aliasing. -/
def MCTS.stn_update [DecidableEq σ] (m : MCTS ω σ) (s : σ) (r : ℚ) (g : QF) (a : ℕ)
    (min_q max_q : QF) : MCTS ω σ :=
  let (node, m2) := m.state_to_node s r
  { m2 with state_node_dict := dictInsert m2.state_node_dict s (node.update g a min_q max_q) }

/-- The loop of MCTS.backup, counting i down from k to 1; states[i-1] or
rewards[i-1] out of range raises IndexError. -/
def MCTS.backupGo [DecidableEq σ] (states : List (σ × ℕ)) (rewards : List ℚ) (v_l : ℚ)
    (k : ℕ) (min_q max_q : QF) : ℕ → MCTS ω σ → Except String (MCTS ω σ)
  | 0, m => pure m
  | j + 1, m =>
    let g_i := m.compute_gain rewards v_l (j + 1) k
    match states[j]?, rewards[j]? with
    | some sa, some r =>
      MCTS.backupGo states rewards v_l k min_q max_q j
        (m.stn_update sa.1 r (some g_i) sa.2 min_q max_q)
    | _, _ => throw "IndexError"

/-- MCTS.backup, lines 161-167: for i in reversed(range(1, k + 1)), update
the node of states[i-1] with the gain for step i.  The states argument is
taken as the list of (state, action) pairs the loop body unpacks; simulation
in fact builds a flattened 1-D np.append array, a difference that is
unobservable because simulation raises before reaching backup. -/
def MCTS.backup [DecidableEq σ] (m : MCTS ω σ) (states : List (σ × ℕ)) (rewards : List ℚ)
    (v_l : ℚ) (k : ℕ) (min_q max_q : QF) : Except String (MCTS ω σ) :=
  MCTS.backupGo states rewards v_l k min_q max_q k m

/-- The selection loop of MCTS.simulation, lines 136-147, as one recursive
pass over the loop state (m, current_node, s_i, state_action, rewards,
min_q, max_q).  Unpacking the None that lookup returns on a miss raises
TypeError; current_node.min_q() raises AttributeError. -/
def MCTS.simLoop [DecidableEq σ] (lg sq : ℚ → ℚ) :
    ℕ → MCTS ω σ × Node σ × σ × List (σ × ℕ) × List ℚ × QF × QF →
    Except String (MCTS ω σ × Node σ × σ × List (σ × ℕ) × List ℚ × QF × QF)
  | 0, st => pure st
  | j + 1, (m, current_node, s_i, state_action, rewards, min_q, max_q) => do
    let a_i ← m.get_action lg sq current_node
    let state_action := state_action ++ [(s_i, a_i)]
    let (looked, m) := m.lookup s_i a_i
    let some (s_i_prime, r_i) := looked | throw "TypeError: cannot unpack None"
    let rewards := rewards ++ [r_i]
    let (node, m) := m.state_to_node s_i_prime r_i
    let current_node := node
    let s_i := s_i_prime
    let mv ← current_node.min_q
    let Mv ← current_node.max_q
    MCTS.simLoop lg sq j
      (m, current_node, s_i, state_action, rewards,
       qfMin min_q (some mv), qfMax max_q (some Mv))

/-- The body of MCTS.simulation, lines 126-159, once k is resolved: min_q
and max_q start as float inf and float -inf, which are non-finite: none.
After the selection loop: one final uncached expansion, store, backup. -/
def MCTS.simulationK [DecidableEq σ] (m : MCTS ω σ) (lg sq : ℚ → ℚ) (obs : ω)
    (k : ℕ) : Except String (MCTS ω σ) := do
  let s0 := m.model.representation_function obs
  let current_node := RootParentNode s0 m.action_space
  let m := { m with state_node_dict := dictInsert m.state_node_dict s0 current_node }
  let s_i := s0
  let (m, current_node, s_i, state_action, rewards, min_q, max_q) ←
    MCTS.simLoop lg sq k (m, current_node, s_i, [], [], none, none)
  let a_l ← m.get_action lg sq current_node
  let state_action := state_action ++ [(s_i, a_l)]
  let (r_l, s_l) := m.model.dynamics_function s_i a_l
  let (p_l, v_l) := m.model.prediction_function s_l
  let rewards := rewards ++ [r_l]
  let m := m.store s_l r_l p_l
  m.backup state_action rewards v_l k min_q max_q

/-- MCTS.simulation, lines 122-159: the default k = None resolves to the
configured self.k (a loop count, hence toNat), then the body runs. -/
def MCTS.simulation [DecidableEq σ] (m : MCTS ω σ) (lg sq : ℚ → ℚ) (obs : ω)
    (kOpt : Option ℕ) : Except String (MCTS ω σ) :=
  m.simulationK lg sq obs (kOpt.getD m.k.toNat)

/-- MCTS.get_root_policy, lines 116-120. -/
def MCTS.get_root_policy [DecidableEq σ] (m : MCTS ω σ) (obs : ω) : List QF × MCTS ω σ :=
  let s0 := m.model.representation_function obs
  let (root_node, m2) := m.state_to_node s0
  (root_node.action_distribution, m2)

/-! Concrete fixtures used to evaluate the embedded code at specific
inputs: an integer-state model with an asymmetric dynamics function (so
that the (reward, next_state) component order is observable), and a
controller built over it. -/

/-- A concrete pure model over integer observations and states. -/
def testModel : Model ℤ ℤ :=
  { representation_function := fun o => o,
    dynamics_function := fun s a => ((a : ℚ) + 5, s + (a : ℤ) + 1),
    prediction_function := fun s => ([1/2, 1/2], (s : ℚ)) }

/-- A concrete controller: k = 2, c1 = 5/4, c2 = 2, gamma = 1/2, two
actions, empty tables. -/
def testM : MCTS ℤ ℤ :=
  { model := testModel, k := 2, c1 := 5/4, c2 := 2, gamma := 1/2,
    action_space := 2, lookup_table := [], state_node_dict := [] }

/-! Generic helper lemmas about the list and dict operations. -/

theorem list_getD_set_self {α : Type _} (l : List α) (i : ℕ) (v d : α)
    (h : i < l.length) : (l.set i v).getD i d = v := by
  induction l generalizing i with
  | nil => exact absurd h (by simp)
  | cons x xs ih =>
    cases i with
    | zero => rfl
    | succ j => exact ih j (Nat.lt_of_succ_lt_succ h)

theorem list_getD_set_ne {α : Type _} (l : List α) (i j : ℕ) (v d : α)
    (h : j ≠ i) : (l.set i v).getD j d = l.getD j d := by
  induction l generalizing i j with
  | nil => rfl
  | cons x xs ih =>
    cases i with
    | zero =>
      cases j with
      | zero => exact absurd rfl h
      | succ j0 => rfl
    | succ i0 =>
      cases j with
      | zero => rfl
      | succ j0 => exact ih i0 j0 (fun e => h (by rw [e]))

theorem dictFind_dictInsert_self {κ β : Type _} [DecidableEq κ]
    (d : List (κ × β)) (k : κ) (v : β) : dictFind (dictInsert d k v) k = some v := by
  induction d with
  | nil => simp [dictInsert, dictFind]
  | cons p rest ih =>
    by_cases h : p.1 = k
    · simp [dictInsert, dictFind, h]
    · simp [dictInsert, dictFind, h, ih]

theorem qfDiv_denom_zero (q : QF) : qfDiv q (some 0) = none := by
  cases q <;> simp [qfDiv]

theorem qfSum_map_some (l : List ℚ) : qfSum (l.map some) = some l.sum := by
  induction l with
  | nil => rfl
  | cons x xs ih =>
    show qfAdd (some x) (qfSum (xs.map some)) = some (x :: xs).sum
    rw [ih]
    simp [qfAdd]

/-! Claim C1.  MCTS.lookup on a cache miss calls the dynamics function and
caches (new_state, reward), but the Python branch has no return statement,
so the caller receives None instead of the cached pair; on a subsequent hit
the cached pair is returned without another dynamics call. -/

/-- Claim C1: evaluated at the failing input (fresh controller, state 0,
action 1): the miss branch returns None (not the transition it cached),
even though the pair (next_state, reward) = (2, 6) is now in the cache and
a second call returns it from the cache.  This contradicts the claim that
the freshly computed result is returned on a miss. -/
theorem claim_C1 :
    (testM.lookup 0 1).1 = none ∧
    dictFind (testM.lookup 0 1).2.lookup_table (0, 1) = some (2, 6) ∧
    ((testM.lookup 0 1).2.lookup 0 1).1 = some (2, 6) := by
  refine ⟨rfl, ?_, ?_⟩ <;>
    norm_num [MCTS.lookup, testM, testModel, dictFind, dictInsert]

/-! Claim C4.  The concrete backup scenario: gamma = 1/2, rewards array
[1, 2], leaf value 4, k = 2. -/

/-- Claim C4 counterexample: at the claimed scenario the gain computed at
step 1 is 2, not the claimed 0.5 ^ 1 * 4 + 2 * 0.5 ^ 0 = 4: compute_gain
drops rewards[i+1:] = rewards[2:] = [], so the reward 2.0 contributes
nothing. -/
theorem claim_C4_cex :
    testM.compute_gain [1, 2] 4 1 2 = 2 ∧
    testM.compute_gain [1, 2] 4 1 2 ≠ (1/2 : ℚ) ^ 1 * 4 + 2 * (1/2 : ℚ) ^ 0 := by
  constructor <;> norm_num [MCTS.compute_gain, testM, npDot, powArange]

/-- Claim C4 as amended: gain at step 2 is 0.5 ^ 0 * 4 = 4 as claimed, but
gain at step 1 is 0.5 ^ 1 * 4 = 2 (the sum over the dropped tail is empty). -/
theorem claim_C4 :
    testM.compute_gain [1, 2] 4 2 2 = 4 ∧ testM.compute_gain [1, 2] 4 1 2 = 2 := by
  constructor <;> norm_num [MCTS.compute_gain, testM, npDot, powArange]

/-! Claim C6.  Node.update with min_q = max_q divides by zero. -/

/-- Claim C6 counterexample: on a fresh one-action node with Q = 0, calling
update with gain 1 and min_q = max_q = 0 stores a non-finite Q (numpy float
division by max_q - min_q = 0; no exception is raised) and increments the
visit count: the stored Q is neither well-defined nor unchanged. -/
theorem claim_C6_cex :
    ((Node.init (0 : ℤ) 0 [1] 1).update (some 1) 0 (some 0) (some 0)).q_values = [none] ∧
    ((Node.init (0 : ℤ) 0 [1] 1).update (some 1) 0 (some 0) (some 0)).visits = [1] ∧
    (Node.init (0 : ℤ) 0 [1] 1).q_values = [some 0] := by
  refine ⟨?_, ?_, ?_⟩ <;>
    norm_num [Node.init, Node.update, Node.set_q_value, Node.update_num_visit,
      Node.number_visits, Node.q_value, qfAdd, qfSub, qfMul, qfDiv,
      List.replicate]

/-- Claim C6 as amended: when update is called with min_q equal to max_q
(both the same finite value), it raises no exception and still increments
the visit count by one, but the rescaling divides by max_q - min_q = 0, so
the stored Q value for that action becomes non-finite instead of staying
unchanged. -/
theorem claim_C6 (node : Node σ) (gain : QF) (a : ℕ) (c : ℚ)
    (ha : a < node.q_values.length) :
    (node.update gain a (some c) (some c)).q_values.getD a (some 0) = none ∧
    (node.update gain a (some c) (some c)).visits =
      node.visits.set a (node.visits.getD a 0 + 1) := by
  constructor
  · show ((node.q_values.set a (qfDiv (qfSub _ (some c)) (qfSub (some c) (some c))))).getD
      a (some 0) = none
    have h0 : qfSub (some c) (some c) = some 0 := by simp [qfSub]
    rw [h0, qfDiv_denom_zero, list_getD_set_self _ _ _ _ ha]
  · rfl

/-- Claim C6 witness at a concrete input. -/
theorem claim_C6_witness :
    ((Node.init (0 : ℤ) 0 [1, 1] 2).update (some 3) 1 (some 5) (some 5)).q_values.getD 1
      (some 0) = none ∧
    ((Node.init (0 : ℤ) 0 [1, 1] 2).update (some 3) 1 (some 5) (some 5)).visits =
      (Node.init (0 : ℤ) 0 [1, 1] 2).visits.set 1
        ((Node.init (0 : ℤ) 0 [1, 1] 2).visits.getD 1 0 + 1) :=
  claim_C6 (Node.init (0 : ℤ) 0 [1, 1] 2) (some 3) 1 5 (by decide)

/-! Claim C9.  MCTS.store unconditionally replaces the node bound to the
state with a fresh zero-statistics node. -/

/-- Claim C9: whatever the node table held before (any controller state m),
after store(s, r, p) the table maps s to the fresh node, whose Q-values and
visit counts are all zero. -/
theorem claim_C9 [DecidableEq σ] (m : MCTS ω σ) (s : σ) (r : ℚ) (p : List ℚ) :
    dictFind (m.store s r p).state_node_dict s = some (Node.init s r p m.action_space) ∧
    (Node.init s r p m.action_space).q_values = List.replicate m.action_space (some 0) ∧
    (Node.init s r p m.action_space).visits = List.replicate m.action_space 0 :=
  ⟨dictFind_dictInsert_self _ _ _, rfl, rfl⟩

/-! Claim C10.  Node.update is frame-exact: only index a of q_values and
visits changes, and visits[a] grows by exactly one. -/

/-- Claim C10: for a valid action a, update changes only q_values[a] and
visits[a]; visits[a] increases by exactly 1, all other entries, both
lengths, and the state, reward and policy fields are untouched, for every
gain, min_q and max_q. -/
theorem claim_C10 (node : Node σ) (gain : QF) (a : ℕ) (mq Mq : QF)
    (ha : a < node.visits.length) :
    (node.update gain a mq Mq).state = node.state ∧
    (node.update gain a mq Mq).reward = node.reward ∧
    (node.update gain a mq Mq).policy = node.policy ∧
    (node.update gain a mq Mq).visits.getD a 0 = node.visits.getD a 0 + 1 ∧
    (∀ i, i ≠ a → (node.update gain a mq Mq).visits.getD i 0 = node.visits.getD i 0) ∧
    (∀ i, i ≠ a → (node.update gain a mq Mq).q_values.getD i none =
      node.q_values.getD i none) ∧
    (node.update gain a mq Mq).visits.length = node.visits.length ∧
    (node.update gain a mq Mq).q_values.length = node.q_values.length := by
  refine ⟨rfl, rfl, rfl, ?_, ?_, ?_, ?_, ?_⟩
  · exact list_getD_set_self _ _ _ _ ha
  · exact fun i hi => list_getD_set_ne _ _ _ _ _ hi
  · exact fun i hi => list_getD_set_ne _ _ _ _ _ hi
  · exact List.length_set _ _ _
  · exact List.length_set _ _ _

/-- Claim C10 witness at a concrete input. -/
theorem claim_C10_witness :
    ((Node.init (7 : ℤ) 2 [1, 0] 2).update (some 9) 0 none (some 4)).state =
      (Node.init (7 : ℤ) 2 [1, 0] 2).state ∧
    ((Node.init (7 : ℤ) 2 [1, 0] 2).update (some 9) 0 none (some 4)).reward =
      (Node.init (7 : ℤ) 2 [1, 0] 2).reward ∧
    ((Node.init (7 : ℤ) 2 [1, 0] 2).update (some 9) 0 none (some 4)).policy =
      (Node.init (7 : ℤ) 2 [1, 0] 2).policy ∧
    ((Node.init (7 : ℤ) 2 [1, 0] 2).update (some 9) 0 none (some 4)).visits.getD 0 0 =
      (Node.init (7 : ℤ) 2 [1, 0] 2).visits.getD 0 0 + 1 ∧
    (∀ i, i ≠ 0 →
      ((Node.init (7 : ℤ) 2 [1, 0] 2).update (some 9) 0 none (some 4)).visits.getD i 0 =
        (Node.init (7 : ℤ) 2 [1, 0] 2).visits.getD i 0) ∧
    (∀ i, i ≠ 0 →
      ((Node.init (7 : ℤ) 2 [1, 0] 2).update (some 9) 0 none (some 4)).q_values.getD i none =
        (Node.init (7 : ℤ) 2 [1, 0] 2).q_values.getD i none) ∧
    ((Node.init (7 : ℤ) 2 [1, 0] 2).update (some 9) 0 none (some 4)).visits.length =
      (Node.init (7 : ℤ) 2 [1, 0] 2).visits.length ∧
    ((Node.init (7 : ℤ) 2 [1, 0] 2).update (some 9) 0 none (some 4)).q_values.length =
      (Node.init (7 : ℤ) 2 [1, 0] 2).q_values.length :=
  claim_C10 (Node.init (7 : ℤ) 2 [1, 0] 2) (some 9) 0 none (some 4) (by decide)

/-! Claim C7.  Node.action_distribution normalizes to sum one for positive
total visits; at zero total visits it raises nothing and returns a vector
of non-finite entries (numpy division by zero). -/

/-- Claim C7 counterexample: a fresh two-action node has total visits 0,
and action_distribution returns the all-non-finite vector (0 / 0 is NaN in
numpy) instead of failing with an InvalidState error. -/
theorem claim_C7_cex :
    (Node.init (0 : ℤ) 0 [1/2, 1/2] 2).get_total_visits = 0 ∧
    (Node.init (0 : ℤ) 0 [1/2, 1/2] 2).action_distribution = [none, none] := by
  constructor <;>
    norm_num [Node.init, Node.get_total_visits, Node.action_distribution,
      qfDiv, List.replicate]

/-- Claim C7 as amended: whenever the total visit count is positive,
action_distribution returns the visit counts normalized to sum exactly
to 1; at zero total it does not fail but returns non-finite entries. -/
theorem claim_C7 (node : Node σ) (h : 0 < node.visits.sum) :
    qfSum node.action_distribution = some 1 := by
  have ht : node.visits.sum ≠ 0 := ne_of_gt h
  show qfSum (node.visits.map fun v => qfDiv (some v) (some node.visits.sum)) = some 1
  have hmap : (node.visits.map fun v => qfDiv (some v) (some node.visits.sum)) =
      (node.visits.map fun v => v / node.visits.sum).map some := by
    rw [List.map_map]
    exact List.map_congr_left fun v _ => by simp [qfDiv, ht]
  rw [hmap, qfSum_map_some]
  congr 1
  have : (node.visits.map fun v => v / node.visits.sum) =
      node.visits.map fun v => v * (node.visits.sum)⁻¹ := by
    exact List.map_congr_left fun v _ => div_eq_mul_inv v _
  rw [this]
  rw [show (fun v => v * (node.visits.sum)⁻¹) = fun v => id v * (node.visits.sum)⁻¹ from rfl]
  rw [List.sum_map_mul_right, List.map_id]
  exact mul_inv_cancel₀ ht

/-- Claim C7 witness at a concrete input: visits [1, 3]. -/
theorem claim_C7_witness :
    qfSum (Node.mk (0 : ℤ) none none [] [1, 3]).action_distribution = some 1 :=
  claim_C7 (Node.mk (0 : ℤ) none none [] [1, 3]) (by norm_num [List.sum_cons])

/-! Claim C8.  Construction validates only k_sims (assert k > 1) and the
presence of the four dict keys; gamma is read but never validated. -/

/-- Claim C8 counterexample: construction with gamma = -1 (and k_sims = 2)
succeeds, so a negative gamma does not fail fast at construction. -/
theorem claim_C8_cex :
    MCTS.init testModel ⟨some 2, some 1, some 1, some (-1)⟩ 3 =
      Except.ok { model := testModel, k := 2, c1 := 1, c2 := 1, gamma := -1,
                  action_space := 3, lookup_table := [], state_node_dict := [] } := rfl

/-- Claim C8 as amended: construction succeeds exactly when all four keys
k_sims, c1, c2, gamma are present in the parameter dict and k_sims > 1;
a missing key raises KeyError and k_sims <= 1 fails the assertion, but the
value of gamma (in particular a negative one) is not validated. -/
theorem claim_C8 (model : Model ω σ) (p : MCTSParam) (aLen : ℕ) :
    (∃ cfg, MCTS.init model p aLen = Except.ok cfg) ↔
    (∃ k c1 c2 g, p.k_sims = some k ∧ p.c1 = some c1 ∧ p.c2 = some c2 ∧
      p.gamma = some g ∧ 1 < k) := by
  obtain ⟨ks, pc1, pc2, pg⟩ := p
  cases ks with
  | none => simp [MCTS.init]
  | some k =>
    cases pc1 with
    | none => simp [MCTS.init]
    | some c1 =>
      cases pc2 with
      | none => simp [MCTS.init]
      | some c2 =>
        cases pg with
        | none => simp [MCTS.init]
        | some g =>
          by_cases hk : 1 < k
          · simp [MCTS.init, hk]
          · simp [MCTS.init, hk]

/-! Claim C5.  The action chosen by get_action maximizes the PUCT score,
with first-max tie breaking. -/

/-- The PUCT score of action a exactly as the claim words it:
Q(a) + policy(a) * term * sqrt(N_total) / (1 + N(a)) with
term = c1 + ln(N_total + c2 + 1) - ln(c2) and N_total the total visits. -/
def pucbScore (c1 c2 : ℚ) (lg sq : ℚ → ℚ) (qs p vs : List ℚ) (a : ℕ) : ℚ :=
  qs.getD a 0 + p.getD a 0 * (c1 + lg (vs.sum + c2 + 1) - lg c2) * sq vs.sum / (1 + vs.getD a 0)

theorem npArgmaxFirst_cons_cons (x y : ℚ) (rest : List ℚ) :
    npArgmaxFirst (x :: y :: rest) =
      if x < (y :: rest).getD (npArgmaxFirst (y :: rest)) 0
      then npArgmaxFirst (y :: rest) + 1 else 0 := rfl

theorem npArgmaxFirst_lt_length : ∀ (l : List ℚ), l ≠ [] → npArgmaxFirst l < l.length := by
  intro l
  induction l with
  | nil => intro h; exact absurd rfl h
  | cons x xs ih =>
    intro _
    cases xs with
    | nil => simp [npArgmaxFirst]
    | cons y rest =>
      rw [npArgmaxFirst_cons_cons]
      have hj := ih (List.cons_ne_nil y rest)
      by_cases hx : x < (y :: rest).getD (npArgmaxFirst (y :: rest)) 0
      · rw [if_pos hx]
        exact Nat.succ_lt_succ hj
      · rw [if_neg hx]
        exact Nat.succ_pos _

theorem npArgmaxFirst_le : ∀ (l : List ℚ) (i : ℕ), i < l.length →
    l.getD i 0 ≤ l.getD (npArgmaxFirst l) 0 := by
  intro l
  induction l with
  | nil => intro i hi; simp at hi
  | cons x xs ih =>
    intro i hi
    cases xs with
    | nil =>
      have h0 : i = 0 := Nat.lt_one_iff.mp hi
      subst h0
      exact le_refl _
    | cons y rest =>
      rw [npArgmaxFirst_cons_cons]
      by_cases hx : x < (y :: rest).getD (npArgmaxFirst (y :: rest)) 0
      · rw [if_pos hx]
        cases i with
        | zero => exact le_of_lt hx
        | succ i0 =>
          show (y :: rest).getD i0 0 ≤ (y :: rest).getD (npArgmaxFirst (y :: rest)) 0
          exact ih i0 (Nat.lt_of_succ_lt_succ hi)
      · rw [if_neg hx]
        cases i with
        | zero => exact le_refl _
        | succ i0 =>
          show (y :: rest).getD i0 0 ≤ x
          exact le_trans (ih i0 (Nat.lt_of_succ_lt_succ hi)) (not_lt.mp hx)

theorem npArgmaxFirst_first : ∀ (l : List ℚ) (i : ℕ), i < npArgmaxFirst l →
    l.getD i 0 < l.getD (npArgmaxFirst l) 0 := by
  intro l
  induction l with
  | nil => intro i hi; simp [npArgmaxFirst] at hi
  | cons x xs ih =>
    intro i hi
    cases xs with
    | nil => simp [npArgmaxFirst] at hi
    | cons y rest =>
      rw [npArgmaxFirst_cons_cons] at hi ⊢
      by_cases hx : x < (y :: rest).getD (npArgmaxFirst (y :: rest)) 0
      · rw [if_pos hx] at hi ⊢
        cases i with
        | zero => exact hx
        | succ i0 =>
          show (y :: rest).getD i0 0 < (y :: rest).getD (npArgmaxFirst (y :: rest)) 0
          exact ih i0 (Nat.lt_of_succ_lt_succ hi)
      · rw [if_neg hx] at hi
        exact absurd hi (Nat.not_lt_zero i)

theorem findIdx_isNone_map_some (l : List ℚ) :
    ∀ s, (l.map some).findIdx? Option.isNone s = none := by
  induction l with
  | nil => intro s; rfl
  | cons x xs ih => intro s; simp [List.findIdx?_cons, ih (s + 1)]

theorem filterMap_id_map_some (l : List ℚ) : (l.map some).filterMap id = l := by
  induction l with
  | nil => rfl
  | cons x xs ih => simp [ih]

theorem npArgmax_map_some (l : List ℚ) : npArgmax (l.map some) = npArgmaxFirst l := by
  unfold npArgmax
  rw [findIdx_isNone_map_some l 0, filterMap_id_map_some]

theorem zipWith_values_map_some (term sqt : ℚ) :
    ∀ (qs : List ℚ) (lp : List (ℚ × ℚ)), (∀ pv ∈ lp, (1 : ℚ) + pv.2 ≠ 0) →
    List.zipWith (fun q pv => qfAdd q (qfDiv (some (pv.1 * term * sqt)) (some (1 + pv.2))))
      (qs.map some) lp =
    (List.zipWith (fun q pv => q + pv.1 * term * sqt / (1 + pv.2)) qs lp).map some := by
  intro qs
  induction qs with
  | nil => intro lp _; simp
  | cons q qs ih =>
    intro lp hlp
    cases lp with
    | nil => simp
    | cons pv lp2 =>
      have h0 : (1 : ℚ) + pv.2 ≠ 0 := hlp pv (List.mem_cons_self pv lp2)
      simp only [List.map_cons, List.zipWith_cons_cons]
      congr 1
      · simp [qfAdd, qfDiv, h0]
      · exact ih lp2 fun pv2 h2 => hlp pv2 (List.mem_cons_of_mem pv h2)

/-- Claim C5: for every node whose policy is assigned, whose Q-values are
all finite, whose vectors have matching lengths and whose visit counts are
nonnegative, get_action returns an index j of maximal PUCT score, and every
earlier index has strictly smaller score (first-max tie breaking), for any
log and sqrt functions. -/
theorem claim_C5 (m : MCTS ω σ) (lg sq : ℚ → ℚ) (node : Node σ) (p qs : List ℚ)
    (hp : node.policy = some p)
    (hq : node.q_values = qs.map some)
    (hlp : p.length = qs.length)
    (hlv : node.visits.length = qs.length)
    (hvnn : ∀ v ∈ node.visits, 0 ≤ v)
    (hne : 0 < qs.length) :
    ∃ j, m.get_action lg sq node = Except.ok j ∧ j < qs.length ∧
      (∀ i, i < qs.length →
        pucbScore m.c1 m.c2 lg sq qs p node.visits i ≤
          pucbScore m.c1 m.c2 lg sq qs p node.visits j) ∧
      (∀ i, i < j →
        pucbScore m.c1 m.c2 lg sq qs p node.visits i <
          pucbScore m.c1 m.c2 lg sq qs p node.visits j) := by
  have h1 : ∀ pv ∈ p.zip node.visits, (1 : ℚ) + pv.2 ≠ 0 := by
    rintro ⟨a, b⟩ hpv
    have hb : 0 ≤ b := hvnn b (List.of_mem_zip hpv).2
    have : (0 : ℚ) < 1 + b := by linarith
    exact ne_of_gt this
  have hga : m.get_action lg sq node =
      Except.ok (npArgmaxFirst
        (List.zipWith
          (fun q pv => q + pv.1 * (m.c1 + lg (node.get_total_visits + m.c2 + 1) - lg m.c2) *
            sq node.get_total_visits / (1 + pv.2))
          qs (p.zip node.visits))) := by
    simp only [MCTS.get_action, hp, hq]
    rw [zipWith_values_map_some _ _ _ _ h1, npArgmax_map_some]
  have hlen : (List.zipWith
      (fun q pv => q + pv.1 * (m.c1 + lg (node.get_total_visits + m.c2 + 1) - lg m.c2) *
        sq node.get_total_visits / (1 + pv.2))
      qs (p.zip node.visits)).length = qs.length := by
    rw [List.length_zipWith, List.length_zip, hlp, hlv]
    simp
  have hscore : ∀ i, i < qs.length →
      (List.zipWith
        (fun q pv => q + pv.1 * (m.c1 + lg (node.get_total_visits + m.c2 + 1) - lg m.c2) *
          sq node.get_total_visits / (1 + pv.2))
        qs (p.zip node.visits)).getD i 0 =
      pucbScore m.c1 m.c2 lg sq qs p node.visits i := by
    intro i hi
    have hiz : i < (List.zipWith
        (fun q pv => q + pv.1 * (m.c1 + lg (node.get_total_visits + m.c2 + 1) - lg m.c2) *
          sq node.get_total_visits / (1 + pv.2))
        qs (p.zip node.visits)).length := by rw [hlen]; exact hi
    rw [List.getD_eq_getElem _ _ hiz, List.getElem_zipWith, List.getElem_zip]
    unfold pucbScore
    rw [List.getD_eq_getElem _ _ hi, List.getD_eq_getElem _ _ (hlp ▸ hi),
      List.getD_eq_getElem _ _ (hlv ▸ hi)]
    rfl
  set scores := List.zipWith
    (fun q pv => q + pv.1 * (m.c1 + lg (node.get_total_visits + m.c2 + 1) - lg m.c2) *
      sq node.get_total_visits / (1 + pv.2))
    qs (p.zip node.visits) with hscdef
  have hnil : scores ≠ [] := List.ne_nil_of_length_pos (by rw [hlen]; exact hne)
  have hjlt : npArgmaxFirst scores < qs.length := hlen ▸ npArgmaxFirst_lt_length scores hnil
  refine ⟨npArgmaxFirst scores, hga, hjlt, ?_, ?_⟩
  · intro i hi
    rw [← hscore i hi, ← hscore _ hjlt]
    exact npArgmaxFirst_le scores i (by rw [hlen]; exact hi)
  · intro i hi
    rw [← hscore i (lt_trans hi hjlt), ← hscore _ hjlt]
    exact npArgmaxFirst_first scores i hi

/-- A concrete node for the claim C5 witness. -/
def testNodeC5 : Node ℤ :=
  { state := 0, reward := some 0, policy := some [2/3, 1/3],
    q_values := [some 0, some 1], visits := [1, 1] }

/-- Claim C5 witness at a concrete input. -/
theorem claim_C5_witness :
    ∃ j, testM.get_action id id testNodeC5 = Except.ok j ∧ j < 2 ∧
      (∀ i, i < 2 →
        pucbScore testM.c1 testM.c2 id id [0, 1] [2/3, 1/3] testNodeC5.visits i ≤
          pucbScore testM.c1 testM.c2 id id [0, 1] [2/3, 1/3] testNodeC5.visits j) ∧
      (∀ i, i < j →
        pucbScore testM.c1 testM.c2 id id [0, 1] [2/3, 1/3] testNodeC5.visits i <
          pucbScore testM.c1 testM.c2 id id [0, 1] [2/3, 1/3] testNodeC5.visits j) :=
  claim_C5 testM id id testNodeC5 [2/3, 1/3] [0, 1] rfl rfl rfl rfl
    (by intro v hv; simp [testNodeC5] at hv; norm_num [hv])
    (by norm_num)

/-! Claim C3.  The backup gain formula.  claimedGain is the formula the
claim words; nStepGain is the closed form of what compute_gain in fact
computes; they differ. -/

/-- The gain exactly as the claim words it: gamma ^ (k - i) * v_leaf plus
the sum over j from i + 1 to k of gamma ^ (j - i) * reward_j, where
reward_j is the reward observed at descent step j (1-indexed, hence entry
j - 1 of the rewards array); written with j = i + 1 + t over t < k - i. -/
def claimedGain (gamma : ℚ) (rewards : List ℚ) (v_l : ℚ) (i k : ℕ) : ℚ :=
  gamma ^ (k - i) * v_l +
    ((List.range (k - i)).map (fun t => gamma ^ (t + 1) * rewards.getD (i + t) 0)).sum

/-- The gain compute_gain in fact produces, in closed form: gamma ^ (k - i)
times v_leaf plus the sum of gamma ^ t * rewards[i + 1 + t] over the whole
tail of the rewards array from index i + 1 on — the entry at index i is
skipped and the final entry (the final-expansion reward in the array backup
receives) is included, each one power of gamma earlier than the claim
says. -/
def nStepGain (gamma : ℚ) (rewards : List ℚ) (v_l : ℚ) (i k : ℕ) : ℚ :=
  gamma ^ (k - i) * v_l +
    ((List.range (rewards.length - (i + 1))).map
      (fun t => gamma ^ t * rewards.getD (i + 1 + t) 0)).sum

/-- Proof-internal Horner form of the discounted tail sum. -/
def hornerDot (γ : ℚ) : List ℚ → ℚ
  | [] => 0
  | x :: xs => x + γ * hornerDot γ xs

theorem npDot_map_mulr (c : ℚ) : ∀ (xs ys : List ℚ),
    npDot xs (ys.map (fun y => y * c)) = npDot xs ys * c := by
  intro xs
  induction xs with
  | nil => intro ys; simp [npDot]
  | cons x xs ih =>
    intro ys
    cases ys with
    | nil => simp [npDot]
    | cons y ys2 =>
      show x * (y * c) + npDot xs (ys2.map fun y => y * c) = (x * y + npDot xs ys2) * c
      rw [ih ys2]
      ring

theorem powArange_succ (γ : ℚ) (n : ℕ) :
    powArange γ (n + 1) = γ ^ 0 :: (powArange γ n).map (fun y => y * γ) := by
  unfold powArange
  rw [List.range_succ_eq_map]
  simp only [List.map_cons, List.map_map]
  congr 1
  exact List.map_congr_left fun e _ => by simp [Function.comp, pow_succ]

theorem npDot_powArange (γ : ℚ) : ∀ (xs : List ℚ),
    npDot xs (powArange γ xs.length) = hornerDot γ xs := by
  intro xs
  induction xs with
  | nil => simp [npDot, powArange, hornerDot]
  | cons x xs ih =>
    rw [show (x :: xs).length = xs.length + 1 from rfl, powArange_succ]
    show x * γ ^ 0 + npDot xs ((powArange γ xs.length).map (fun y => y * γ)) = _
    rw [npDot_map_mulr, ih]
    show x * γ ^ 0 + hornerDot γ xs * γ = x + γ * hornerDot γ xs
    ring

theorem sum_pow_getD (γ : ℚ) : ∀ (xs : List ℚ),
    ((List.range xs.length).map (fun t => γ ^ t * xs.getD t 0)).sum = hornerDot γ xs := by
  intro xs
  induction xs with
  | nil => simp [hornerDot]
  | cons x xs ih =>
    rw [show (x :: xs).length = xs.length + 1 from rfl, List.range_succ_eq_map,
      List.map_cons, List.sum_cons, List.map_map]
    have htail : ((List.range xs.length).map
        ((fun t => γ ^ t * (x :: xs).getD t 0) ∘ Nat.succ)).sum =
        ((List.range xs.length).map (fun t => γ * (γ ^ t * xs.getD t 0))).sum := by
      refine congrArg List.sum (List.map_congr_left fun t _ => ?_)
      show γ ^ (t + 1) * xs.getD t 0 = γ * (γ ^ t * xs.getD t 0)
      rw [pow_succ]
      ring
    rw [htail, List.sum_map_mul_left, ih]
    show γ ^ 0 * x + γ * hornerDot γ xs = x + γ * hornerDot γ xs
    ring

theorem getD_drop_q (d : ℚ) : ∀ (l : List ℚ) (n t : ℕ),
    (l.drop n).getD t d = l.getD (n + t) d := by
  intro l
  induction l with
  | nil => intro n t; simp
  | cons x xs ih =>
    intro n t
    cases n with
    | zero => simp
    | succ n0 =>
      show (xs.drop n0).getD t d = (x :: xs).getD (n0 + 1 + t) d
      have he : n0 + 1 + t = (n0 + t) + 1 := by omega
      rw [he, List.getD_cons_succ]
      exact ih n0 t

/-- compute_gain equals its closed form nStepGain. -/
theorem compute_gain_eq_nStepGain (m : MCTS ω σ) (rewards : List ℚ) (v_l : ℚ) (i l : ℕ) :
    m.compute_gain rewards v_l i l = nStepGain m.gamma rewards v_l i l := by
  show m.gamma ^ (l - i) * v_l +
      npDot (rewards.drop (i + 1)) (powArange m.gamma (rewards.drop (i + 1)).length) =
    m.gamma ^ (l - i) * v_l +
      ((List.range (rewards.length - (i + 1))).map
        (fun t => m.gamma ^ t * rewards.getD (i + 1 + t) 0)).sum
  congr 1
  rw [npDot_powArange, ← sum_pow_getD]
  rw [List.length_drop]
  refine congrArg List.sum (List.map_congr_left fun t _ => ?_)
  rw [getD_drop_q]

/-- Claim C3 as amended, as a definition: walk the visited path in reverse,
i from k down to 1 (the fuel argument is i), and apply Node.update, through
the node table, at the node of states[i - 1] — the node one step back —
with the action taken from it, the tracked min and max Q bounds, and the
gain in its closed form nStepGain. -/
def backupWalkSpec [DecidableEq σ] (states : List (σ × ℕ)) (rewards : List ℚ) (v_l : ℚ)
    (k : ℕ) (min_q max_q : QF) : ℕ → MCTS ω σ → MCTS ω σ
  | 0, m => m
  | j + 1, m =>
    match states[j]?, rewards[j]? with
    | some sa, some r =>
      backupWalkSpec states rewards v_l k min_q max_q j
        (m.stn_update sa.1 r (some (nStepGain m.gamma rewards v_l (j + 1) k)) sa.2 min_q max_q)
    | _, _ => m

theorem stn_update_gamma [DecidableEq σ] (m : MCTS ω σ) (s : σ) (r : ℚ) (g : QF) (a : ℕ)
    (mq Mq : QF) : (m.stn_update s r g a mq Mq).gamma = m.gamma := by
  unfold MCTS.stn_update MCTS.state_to_node
  cases dictFind m.state_node_dict s <;> rfl

theorem backupGo_eq_walk [DecidableEq σ] (states : List (σ × ℕ)) (rewards : List ℚ)
    (v_l : ℚ) (k : ℕ) (mq Mq : QF) :
    ∀ (j : ℕ) (m : MCTS ω σ), j ≤ states.length → j ≤ rewards.length →
    MCTS.backupGo states rewards v_l k mq Mq j m =
      Except.ok (backupWalkSpec states rewards v_l k mq Mq j m) := by
  intro j
  induction j with
  | zero => intro m _ _; rfl
  | succ j0 ih =>
    intro m hs hr
    have hs0 : j0 < states.length := Nat.lt_of_lt_of_le (Nat.lt_succ_self j0) hs
    have hr0 : j0 < rewards.length := Nat.lt_of_lt_of_le (Nat.lt_succ_self j0) hr
    have hsa : states[j0]? = some states[j0] := List.getElem?_eq_getElem hs0
    have hrr : rewards[j0]? = some rewards[j0] := List.getElem?_eq_getElem hr0
    simp only [MCTS.backupGo, backupWalkSpec, hsa, hrr]
    rw [compute_gain_eq_nStepGain]
    exact ih _ (le_trans (Nat.le_succ j0) hs) (le_trans (Nat.le_succ j0) hr)

/-- Claim C3 counterexample: with gamma = 1/2, rewards array [1, 2, 8]
(k = 2 descent rewards 1 and 2, final-expansion reward 8) and leaf value 4,
the gain the code computes at step i = 1 is 1/2 * 4 + 8 = 10, while the
formula of the claim gives 1/2 * 4 + (1/2) * 2 = 3. -/
theorem claim_C3_cex :
    testM.compute_gain [1, 2, 8] 4 1 2 = 10 ∧
    claimedGain (1/2) [1, 2, 8] 4 1 2 = 3 ∧
    testM.compute_gain [1, 2, 8] 4 1 2 ≠ claimedGain (1/2) [1, 2, 8] 4 1 2 := by
  refine ⟨?_, ?_, ?_⟩ <;>
    norm_num [MCTS.compute_gain, claimedGain, testM, npDot, powArange,
      List.range_succ]

/-- Claim C3 as amended: backup walks the path in reverse (i = k down
to 1), updating the node of states[i - 1] with the action taken from it
and the min/max bounds, but the gain is the closed form nStepGain — the
discounted tail of the rewards array from index i + 1 on (weights gamma ^ 0,
gamma ^ 1, …) plus gamma ^ (k - i) * v_leaf — not the formula of the
claim. -/
theorem claim_C3 [DecidableEq σ] (m : MCTS ω σ) (states : List (σ × ℕ)) (rewards : List ℚ)
    (v_l : ℚ) (k : ℕ) (mq Mq : QF) (hs : k ≤ states.length) (hr : k ≤ rewards.length) :
    m.backup states rewards v_l k mq Mq =
      Except.ok (backupWalkSpec states rewards v_l k mq Mq k m) ∧
    (∀ i l2, m.compute_gain rewards v_l i l2 = nStepGain m.gamma rewards v_l i l2) :=
  ⟨backupGo_eq_walk states rewards v_l k mq Mq k m hs hr,
   fun i l2 => compute_gain_eq_nStepGain m rewards v_l i l2⟩

/-- Claim C3 witness at a concrete input. -/
theorem claim_C3_witness :
    testM.backup [((5 : ℤ), 0), ((7 : ℤ), 1)] [1, 2, 8] 4 2 none none =
      Except.ok (backupWalkSpec [((5 : ℤ), 0), ((7 : ℤ), 1)] [1, 2, 8] 4 2 none none 2 testM) ∧
    (∀ i l2, testM.compute_gain [1, 2, 8] 4 i l2 =
      nStepGain testM.gamma [1, 2, 8] 4 i l2) :=
  claim_C3 testM [((5 : ℤ), 0), ((7 : ℤ), 1)] [1, 2, 8] 4 2 none none
    (by norm_num) (by norm_num)

/-! Claim C2.  simulation can never run to completion: its very first
action selection reads current_node.policy on the RootParentNode, which
never assigns that attribute, so every call raises AttributeError (were it
to get further, Node.min_q and Node.max_q are likewise undefined). -/

/-- Claim C2: for every controller, model, log/sqrt functions, observation
and k (default or explicit), simulation raises AttributeError instead of
terminating normally — the claim that a simulation call runs to completion
with every accessed attribute defined fails on every input. -/
theorem claim_C2 [DecidableEq σ] (m : MCTS ω σ) (lg sq : ℚ → ℚ) (obs : ω)
    (kOpt : Option ℕ) :
    m.simulation lg sq obs kOpt = Except.error "AttributeError: policy" := by
  show m.simulationK lg sq obs (kOpt.getD m.k.toNat) = _
  generalize kOpt.getD m.k.toNat = k
  cases k with
  | zero => rfl
  | succ j => rfl

end AMPED
